import Mathlib

/-!
# CanvasFlow Pro — alarm engine and Gantt timeline layout, shallow embedding

This file embeds the scheduling/alarm core of the CanvasFlow Pro repository:

* `src/lib/activity-utils.ts` — `calculateActivityAlarm`, the shared alarm
  classification (the "AlarmEngine" of the spec);
* the inline alarm classification of the Activity Card component
  (`ActivityCard`, `alarmState` memo);
* `src/components/gantt/GanttChart.tsx` — the range/`todayPosition`
  computation of the `useMemo` block (the spec's `computeTimelineLayout`),
  `calculatePosition`, `calculateWidth`, and `generateColumns`.

Time model: instants are integers counting milliseconds (the value of
JavaScript `Date.prototype.getTime`), in an idealized calendar with no
DST shifts, so that every day is exactly `msPerDay` milliseconds long and
`startOfDay` is flooring to a multiple of `msPerDay`.  `date-fns`
`isPast(d)` is `d < now` for the current instant `now`; the implicit
`new Date()` of the source becomes an explicit `now` parameter.
Pixel geometry is computed in `ℚ` (idealizing JavaScript float division).
Month-granular calendar arithmetic (for `generateColumns` in month mode)
is embedded over civil dates further below.
-/

/-- Milliseconds per day, the divisor used by the source
(`1000 * 60 * 60 * 24`). -/
def msPerDay : Int := 86400000

/-- `date-fns` `startOfDay`: truncate an instant to the start of its day
(floor to a multiple of `msPerDay`). -/
def startOfDayMs (t : Int) : Int := t - t % msPerDay

/-- `date-fns` `addDays` on instants: add `n` days. -/
def addDaysMs (t : Int) (n : Int) : Int := t + n * msPerDay

/-- Activity status, `'todo' | 'doing' | 'finished'`. -/
inductive Status where
  | todo
  | doing
  | finished
deriving DecidableEq, Repr, BEq

/-- The scheduling-relevant fields of an `Activity` record
(`useActivities.ts`).  `start_date` is the parsed timestamp
(`new Date(activity.start_date).getTime()`); `duration_days` and
`progress` are `number | null`.  The remaining fields (`id`, `title`,
`notes`, ownership and bookkeeping columns) are opaque to the scheduling
core and omitted. -/
structure Activity where
  status : Status
  start_date : Int
  duration_days : Option Int
  progress : Option Int
deriving DecidableEq, Repr

/-- JavaScript truthiness of a `number | null` value: `null` and `0` are
falsy, every other number is truthy.  This is the test performed by
`activity.duration_days ? … : …`. -/
def jsTruthy : Option Int → Bool
  | none => false
  | some k => k != 0

/-- Alarm classification, `'critical' | 'ghost' | 'normal'`. -/
inductive AlarmState where
  | critical
  | ghost
  | normal
deriving DecidableEq, Repr

/-- Result record of `calculateActivityAlarm` (`ActivityAlarmInfo`).
`plannedEndDate : Option Int` models the `Date | null` field. -/
structure ActivityAlarmInfo where
  state : AlarmState
  isOverdue : Bool
  daysOverdue : Int
  plannedEndDate : Option Int
  visualEndDate : Int
deriving DecidableEq, Repr

/-- `calculateActivityAlarm` from `src/lib/activity-utils.ts`, with the
wall clock (`new Date()`) passed explicitly as `now`.

* `today = startOfDay(now)`, `startDate = startOfDay(start_date)`;
* `plannedEndDate = duration_days ? addDays(startDate, duration_days) : null`;
* `visualEndDate = plannedEndDate || today`;
* `doing` & `plannedEndDate && isPast(plannedEndDate)` ⇒ overdue:
  `daysOverdue = Math.floor((today − plannedEndDate) / msPerDay)`
  (`Int.fdiv` is floor division), `visualEndDate = today`,
  `state = critical`;
* `todo` & `isPast(startDate)` ⇒ `state = ghost`. -/
def calculateActivityAlarm (a : Activity) (now : Int) : ActivityAlarmInfo :=
  let today := startOfDayMs now
  let startDate := startOfDayMs a.start_date
  let plannedEndDate : Option Int :=
    if jsTruthy a.duration_days then
      some (addDaysMs startDate (a.duration_days.getD 0))
    else none
  let visualEndDate := plannedEndDate.getD today
  match a.status with
  | Status.doing =>
    match plannedEndDate with
    | some p =>
      if p < now then
        { state := AlarmState.critical
          isOverdue := true
          daysOverdue := (today - p).fdiv msPerDay
          plannedEndDate := plannedEndDate
          visualEndDate := today }
      else
        { state := AlarmState.normal, isOverdue := false, daysOverdue := 0
          plannedEndDate := plannedEndDate, visualEndDate := visualEndDate }
    | none =>
      { state := AlarmState.normal, isOverdue := false, daysOverdue := 0
        plannedEndDate := plannedEndDate, visualEndDate := visualEndDate }
  | Status.todo =>
    if startDate < now then
      { state := AlarmState.ghost, isOverdue := false, daysOverdue := 0
        plannedEndDate := plannedEndDate, visualEndDate := visualEndDate }
    else
      { state := AlarmState.normal, isOverdue := false, daysOverdue := 0
        plannedEndDate := plannedEndDate, visualEndDate := visualEndDate }
  | Status.finished =>
    { state := AlarmState.normal, isOverdue := false, daysOverdue := 0
      plannedEndDate := plannedEndDate, visualEndDate := visualEndDate }

/-- The inline alarm classification of the Activity Card component
(`ActivityCard`, the `alarmState` memo).  Unlike the shared utility it
does **not** truncate `start_date` to start-of-day:
`startDate = new Date(activity.start_date)`, and for `doing` activities
`endDate = duration_days ? addDays(startDate, duration_days) : today`
where `today = new Date()` is the current instant `now`;
`critical` iff `isPast(endDate) && duration_days`,
`ghost` iff `todo` and `isPast(startDate)`. -/
def cardAlarmState (a : Activity) (now : Int) : AlarmState :=
  let startDate := a.start_date
  match a.status with
  | Status.doing =>
    let endDate :=
      if jsTruthy a.duration_days then addDaysMs startDate (a.duration_days.getD 0)
      else now
    if endDate < now ∧ jsTruthy a.duration_days = true then AlarmState.critical
    else AlarmState.normal
  | Status.todo =>
    if startDate < now then AlarmState.ghost else AlarmState.normal
  | Status.finished => AlarmState.normal

/-!
## Gantt chart geometry (`GanttChart.tsx`)
-/

/-- View mode of the Gantt chart, `'day' | 'week' | 'month'`. -/
inductive ViewMode where
  | day
  | week
  | month
deriving DecidableEq, Repr

/-- `COLUMN_WIDTH`: pixels per day / week / month column. -/
def COLUMN_WIDTH : ViewMode → ℚ
  | ViewMode.day => 40
  | ViewMode.week => 100
  | ViewMode.month => 120

/-- `date-fns` `differenceInDays(dateLeft, dateRight)`: the number of
full days between the instants, rounded toward zero (`Int.tdiv` is
truncating division; in the DST-free model the millisecond difference
divided by `msPerDay` is exactly that count). -/
def differenceInDays (dateLeft dateRight : Int) : Int :=
  (dateLeft - dateRight).tdiv msPerDay

/-- `calculatePosition(date, chartStart, mode)`: pixel offset of a date
from the chart start.  Week and month modes divide the day delta by 7
and 30 before scaling by the column width. -/
def calculatePosition (date chartStart : Int) (mode : ViewMode) : ℚ :=
  let days : Int := differenceInDays date chartStart
  match mode with
  | ViewMode.week => ((days : ℚ) / 7) * COLUMN_WIDTH ViewMode.week
  | ViewMode.month => ((days : ℚ) / 30) * COLUMN_WIDTH ViewMode.month
  | ViewMode.day => (days : ℚ) * COLUMN_WIDTH ViewMode.day

/-- `calculateWidth(startDate, endDate, mode)`: bar width with the day
delta clamped below at 1 (`Math.max(1, differenceInDays(end, start))`)
and a per-mode minimum floor. -/
def calculateWidth (startDate endDate : Int) (mode : ViewMode) : ℚ :=
  let days : Int := max 1 (differenceInDays endDate startDate)
  match mode with
  | ViewMode.week =>
    max (COLUMN_WIDTH ViewMode.week * 0.5) (((days : ℚ) / 7) * COLUMN_WIDTH ViewMode.week)
  | ViewMode.month =>
    max (COLUMN_WIDTH ViewMode.month * 0.5) (((days : ℚ) / 30) * COLUMN_WIDTH ViewMode.month)
  | ViewMode.day =>
    max (COLUMN_WIDTH ViewMode.day * 0.8) ((days : ℚ) * COLUMN_WIDTH ViewMode.day)

/-- The spec's width formula, written from the spec's words for
comparison with `calculateWidth`:
`width(start, end) = max(minimumBarWidth[mode], daysBetween(start, end) × scale)`
with day mode flooring at 80% of one column width and week/month scales
dividing the day delta by 7 and 30. -/
def specWidth (mode : ViewMode) (startDate endDate : Int) : ℚ :=
  match mode with
  | ViewMode.week =>
    max (COLUMN_WIDTH ViewMode.week * 0.5)
      (((differenceInDays endDate startDate : ℚ) / 7) * COLUMN_WIDTH ViewMode.week)
  | ViewMode.month =>
    max (COLUMN_WIDTH ViewMode.month * 0.5)
      (((differenceInDays endDate startDate : ℚ) / 30) * COLUMN_WIDTH ViewMode.month)
  | ViewMode.day =>
    max (COLUMN_WIDTH ViewMode.day * 0.8)
      ((differenceInDays endDate startDate : ℚ) * COLUMN_WIDTH ViewMode.day)

/-- The spec's width formula with the source's day-delta clamp
`max 1 (daysBetween start end)` made explicit. -/
def specWidthClamped (mode : ViewMode) (startDate endDate : Int) : ℚ :=
  match mode with
  | ViewMode.week =>
    max (COLUMN_WIDTH ViewMode.week * 0.5)
      (((max 1 (differenceInDays endDate startDate) : Int) : ℚ) / 7 * COLUMN_WIDTH ViewMode.week)
  | ViewMode.month =>
    max (COLUMN_WIDTH ViewMode.month * 0.5)
      (((max 1 (differenceInDays endDate startDate) : Int) : ℚ) / 30 * COLUMN_WIDTH ViewMode.month)
  | ViewMode.day =>
    max (COLUMN_WIDTH ViewMode.day * 0.8)
      (((max 1 (differenceInDays endDate startDate) : Int) : ℚ) * COLUMN_WIDTH ViewMode.day)

/-!
### Calendar helpers for week/month snapping

`startOfWeek`/`endOfWeek` (week starts Monday) reduce to day-of-week
arithmetic on day numbers (epoch day 0, 1970-01-01, is a Thursday, so
`getDay = (dayNumber + 4) mod 7`).  Month arithmetic goes through civil
(year, month, day) conversion, Euclidean-division form of the standard
days-from-civil / civil-from-days algorithms.
-/

/-- `true` iff `y` is a Gregorian leap year. -/
def isLeapYear (y : Int) : Bool :=
  (y % 4 == 0 && y % 100 != 0) || y % 400 == 0

/-- Number of days in month `m` (1–12) of year `y`. -/
def daysInMonth (y m : Int) : Int :=
  if m = 2 then (if isLeapYear y then 29 else 28)
  else if m = 4 ∨ m = 6 ∨ m = 9 ∨ m = 11 then 30
  else 31

/-- Day number (days since 1970-01-01) of a civil date
(days-from-civil, Euclidean-division form). -/
def daysFromCivil (y m d : Int) : Int :=
  let y' := y - (if m ≤ 2 then 1 else 0)
  let era := y'.fdiv 400
  let yoe := y' - era * 400
  let mp := m + (if m > 2 then -3 else 9)
  let doy := (153 * mp + 2) / 5 + d - 1
  let doe := yoe * 365 + yoe / 4 - yoe / 100 + doy
  era * 146097 + doe - 719468

/-- Civil date `(year, month, day)` of a day number
(civil-from-days, Euclidean-division form). -/
def civilFromDays (z0 : Int) : Int × Int × Int :=
  let z := z0 + 719468
  let era := z.fdiv 146097
  let doe := z - era * 146097
  let yoe := (doe - doe / 1460 + doe / 36524 - doe / 146096) / 365
  let y := yoe + era * 400
  let doy := doe - (365 * yoe + yoe / 4 - yoe / 100)
  let mp := (5 * doy + 2) / 153
  let d := doy - (153 * mp + 2) / 5 + 1
  let m := mp + (if mp < 10 then 3 else -9)
  (y + (if m ≤ 2 then 1 else 0), m, d)

/-- `date-fns` `startOfWeek(t, { weekStartsOn: 1 })`: midnight of the
Monday of `t`'s week. -/
def startOfWeekMs (t : Int) : Int :=
  let dow := (t.fdiv msPerDay + 4) % 7
  startOfDayMs t - ((dow + 6) % 7) * msPerDay

/-- `date-fns` `endOfWeek(t, { weekStartsOn: 1 })`: last millisecond of
the Sunday of `t`'s week. -/
def endOfWeekMs (t : Int) : Int :=
  startOfWeekMs t + 6 * msPerDay + (msPerDay - 1)

/-- `date-fns` `startOfMonth`: midnight of the first day of `t`'s month. -/
def startOfMonthMs (t : Int) : Int :=
  let c := civilFromDays (t.fdiv msPerDay)
  daysFromCivil c.1 c.2.1 1 * msPerDay

/-- `date-fns` `endOfMonth`: last millisecond of the last day of `t`'s
month. -/
def endOfMonthMs (t : Int) : Int :=
  let c := civilFromDays (t.fdiv msPerDay)
  daysFromCivil c.1 c.2.1 (daysInMonth c.1 c.2.1) * msPerDay + (msPerDay - 1)

/-- `date-fns` `addMonths(t, n)`: same day-of-month `n` calendar months
later, clamped to the target month's length, preserving time of day. -/
def addMonthsMs (t : Int) (n : Int) : Int :=
  let c := civilFromDays (t.fdiv msPerDay)
  let mi := 12 * c.1 + (c.2.1 - 1) + n
  let y' := mi.fdiv 12
  let m' := mi % 12 + 1
  daysFromCivil y' m' (min c.2.2 (daysInMonth y' m')) * msPerDay + t % msPerDay

/-!
### Timeline range and today marker

The range `useMemo` of `GanttChart` (the spec's `computeTimelineLayout`):
derive the visible date range from the `doing` activities and place the
today marker.  The column list itself is generated by `generateColumns`,
embedded at civil-date granularity further below; here we keep the range
endpoints and the today-marker position, the fields the claims are
about.
-/

/-- Result of the range computation: the chart range endpoints and the
pixel position of the today marker. -/
structure TimelineRange where
  startDate : Int
  endDate : Int
  todayPosition : ℚ
deriving DecidableEq, Repr

/-- The range `useMemo` of `GanttChart.tsx` with `new Date()` passed as
`now`.  Filters to `doing` activities; with none, returns the fixed
±14-day default range with `todayPosition = 14 × COLUMN_WIDTH[mode]`;
otherwise collects each activity's start and visual end
(`duration_days ? addDays(start, duration_days) : today`, stretched to
`today` when `duration_days && today > plannedEnd`), takes min/max
together with `today` and `today + 14`, pads per mode, and puts the
today marker at `calculatePosition(today, chartStart, mode)`. -/
def computeTimelineLayout (activities : List Activity) (mode : ViewMode)
    (now : Int) : TimelineRange :=
  let today := startOfDayMs now
  let doingActivities := activities.filter (fun a => a.status == Status.doing)
  if doingActivities.isEmpty then
    { startDate := addDaysMs today (-14)
      endDate := addDaysMs today 14
      todayPosition := 14 * COLUMN_WIDTH mode }
  else
    let allDates := doingActivities.flatMap (fun activity =>
      let start := startOfDayMs activity.start_date
      let plannedEnd :=
        if jsTruthy activity.duration_days then
          addDaysMs start (activity.duration_days.getD 0)
        else today
      let isOverdue := jsTruthy activity.duration_days ∧ today > plannedEnd
      let visualEnd := if isOverdue then today else plannedEnd
      [start, visualEnd])
    let minDate := allDates.foldl min today
    let maxDate := allDates.foldl max (addDaysMs today 14)
    let chartStart :=
      match mode with
      | ViewMode.week => startOfWeekMs (addDaysMs minDate (-7))
      | ViewMode.month => startOfMonthMs (addMonthsMs minDate (-1))
      | ViewMode.day => addDaysMs minDate (-7)
    let chartEnd :=
      match mode with
      | ViewMode.week => endOfWeekMs (addDaysMs maxDate 7)
      | ViewMode.month => endOfMonthMs (addMonthsMs maxDate 1)
      | ViewMode.day => addDaysMs maxDate 7
    { startDate := chartStart
      endDate := chartEnd
      todayPosition := calculatePosition today chartStart mode }

/-!
## Column generation (`generateColumns`) over civil dates

`generateColumns(start, end, mode)` is a while loop over JavaScript
`Date` values which are always day-aligned here (chart range endpoints
are produced by `startOfDay`/`startOfWeek`/`startOfMonth` and friends).
We embed it at day granularity over civil `(year, month, day)` triples;
a JavaScript `Date` is always a normalized calendar date, captured by
the `ValidDate` predicate.  The `Date` comparison `current <= end`
compares timestamps, i.e. day numbers (`toDayNum`).  Column labels are
locale formatting (out of scope per the spec), so a column is modelled
by its date.  The loop is embedded with an explicit iteration budget
equal to the number of days in the range plus one, which the step
lemmas prove sufficient (the loop always exits via its own guard). -/

/-- A civil calendar date. -/
structure CDate where
  year : Int
  month : Int
  day : Int
deriving DecidableEq, Repr

/-- A normalized calendar date, as a JavaScript `Date` always holds:
month in 1–12, day in 1–`daysInMonth`. -/
def ValidDate (c : CDate) : Prop :=
  1 ≤ c.month ∧ c.month ≤ 12 ∧ 1 ≤ c.day ∧ c.day ≤ daysInMonth c.year c.month

instance (c : CDate) : Decidable (ValidDate c) := by
  unfold ValidDate
  infer_instance

/-- Days in the months before month `m` of year `y`. -/
def daysBeforeMonth (y m : Int) : Int :=
  (if 1 < m then 31 else 0) + (if 2 < m then daysInMonth y 2 else 0) +
  (if 3 < m then 31 else 0) + (if 4 < m then 30 else 0) +
  (if 5 < m then 31 else 0) + (if 6 < m then 30 else 0) +
  (if 7 < m then 31 else 0) + (if 8 < m then 31 else 0) +
  (if 9 < m then 30 else 0) + (if 10 < m then 31 else 0) +
  (if 11 < m then 30 else 0)

/-- Days in the years before year `y` (relative to the proleptic
year 0; only differences of day numbers matter). -/
def daysBeforeYear (y : Int) : Int :=
  365 * y + (y - 1) / 4 - (y - 1) / 100 + (y - 1) / 400

/-- Day number of a civil date: a strictly increasing linearization of
the calendar. -/
def toDayNum (c : CDate) : Int :=
  daysBeforeYear c.year + daysBeforeMonth c.year c.month + (c.day - 1)

/-- `date-fns` `addDays(current, 1)` on a normalized date: bump the day,
rolling over month and year ends. -/
def addDays1 (c : CDate) : CDate :=
  if c.day < daysInMonth c.year c.month then ⟨c.year, c.month, c.day + 1⟩
  else if c.month < 12 then ⟨c.year, c.month + 1, 1⟩
  else ⟨c.year + 1, 1, 1⟩

/-- `date-fns` `addMonths(current, 1)`: next month, day-of-month clamped
to the target month's length. -/
def addMonths1 (c : CDate) : CDate :=
  if c.month < 12 then
    ⟨c.year, c.month + 1, min c.day (daysInMonth c.year (c.month + 1))⟩
  else ⟨c.year + 1, 1, min c.day (daysInMonth (c.year + 1) 1)⟩

/-- The per-iteration advance of the `generateColumns` loop:
`addDays(current, 1)` / `addWeeks(current, 1)` (= 7 days) /
`addMonths(current, 1)` according to the view mode. -/
def colStep (mode : ViewMode) (c : CDate) : CDate :=
  match mode with
  | ViewMode.day => addDays1 c
  | ViewMode.week => addDays1^[7] c
  | ViewMode.month => addMonths1 c

/-- The `generateColumns` while loop with an explicit iteration budget:
`while (current <= end) { cols.push(current); advance per mode }`. -/
def generateColumnsGo : Nat → CDate → CDate → ViewMode → List CDate
  | 0, _, _, _ => []
  | fuel + 1, current, e, mode =>
    if toDayNum current ≤ toDayNum e then
      current :: generateColumnsGo fuel (colStep mode current) e mode
    else []

/-- `generateColumns(start, end, mode)` from `GanttChart.tsx`, the dates
of the produced columns.  The iteration budget `days-in-range + 1` is
proven sufficient below (each step advances by at least one day). -/
def generateColumns (start e : CDate) (mode : ViewMode) : List CDate :=
  generateColumnsGo (toDayNum e + 1 - toDayNum start).toNat start e mode

/-!
## Supporting lemmas
-/

-- Basic facts about the day floor.

theorem startOfDayMs_le (t : Int) : startOfDayMs t ≤ t := by
  unfold startOfDayMs msPerDay
  omega

theorem startOfDayMs_dvd (t : Int) : msPerDay ∣ startOfDayMs t := by
  unfold startOfDayMs msPerDay
  exact ⟨t / 86400000, by omega⟩

theorem startOfDayMs_mod (t : Int) : startOfDayMs t % msPerDay = 0 := by
  unfold startOfDayMs msPerDay
  omega

theorem le_startOfDayMs_of_lt {p t : Int} (hp : p % msPerDay = 0)
    (h : p < t) : p ≤ startOfDayMs t := by
  unfold startOfDayMs msPerDay at *
  omega

-- Calendar step lemmas.

theorem one_le_daysInMonth (y m : Int) : 1 ≤ daysInMonth y m := by
  unfold daysInMonth
  split_ifs <;> omega

theorem daysInMonth_le (y m : Int) : daysInMonth y m ≤ 31 := by
  unfold daysInMonth
  split_ifs <;> omega

theorem daysBeforeMonth_succ (y m : Int) (h1 : 1 ≤ m) (h2 : m ≤ 11) :
    daysBeforeMonth y (m + 1) = daysBeforeMonth y m + daysInMonth y m := by
  interval_cases m <;> simp [daysBeforeMonth, daysInMonth]

theorem daysBeforeYear_succ (y : Int) :
    daysBeforeYear (y + 1) =
      daysBeforeYear y + (if isLeapYear y then 366 else 365) := by
  have h : isLeapYear y = true ↔ (y % 4 = 0 ∧ y % 100 ≠ 0) ∨ y % 400 = 0 := by
    simp [isLeapYear]
  unfold daysBeforeYear
  split
  case isTrue hl =>
    rw [h] at hl
    omega
  case isFalse hl =>
    rw [h] at hl
    push_neg at hl
    omega

theorem daysBeforeMonth_twelve (y : Int) :
    daysBeforeMonth y 12 = 306 + daysInMonth y 2 := by
  norm_num [daysBeforeMonth]
  omega

theorem daysInMonth_twelve (y : Int) : daysInMonth y 12 = 31 := by
  norm_num [daysInMonth]

theorem daysBeforeMonth_one (y : Int) : daysBeforeMonth y 1 = 0 := by
  norm_num [daysBeforeMonth]

theorem daysInMonth_feb (y : Int) :
    daysInMonth y 2 = if isLeapYear y then 29 else 28 := by
  norm_num [daysInMonth]

theorem daysBeforeYear_succ_feb (y : Int) :
    daysBeforeYear (y + 1) = daysBeforeYear y + 337 + daysInMonth y 2 := by
  have hy := daysBeforeYear_succ y
  have hfeb := daysInMonth_feb y
  cases hl : isLeapYear y <;> simp [hl] at hy hfeb <;> omega

theorem valid_addDays1 {c : CDate} (h : ValidDate c) :
    ValidDate (addDays1 c) := by
  have p1 := one_le_daysInMonth c.year (c.month + 1)
  have p2 := one_le_daysInMonth (c.year + 1) 1
  obtain ⟨h1, h2, h3, h4⟩ := h
  unfold ValidDate addDays1
  split_ifs with hd hm <;> dsimp only <;> omega

theorem toDayNum_addDays1 {c : CDate} (h : ValidDate c) :
    toDayNum (addDays1 c) = toDayNum c + 1 := by
  obtain ⟨h1, h2, h3, h4⟩ := h
  unfold addDays1
  split_ifs with hd hm
  · unfold toDayNum
    dsimp only
    omega
  · have hstep := daysBeforeMonth_succ c.year c.month h1 (by omega)
    unfold toDayNum
    dsimp only
    omega
  · have hm12 : c.month = 12 := by omega
    have hb1 := daysBeforeMonth_one (c.year + 1)
    have hb12 := daysBeforeMonth_twelve c.year
    have hd12 := daysInMonth_twelve c.year
    have key := daysBeforeYear_succ_feb c.year
    rw [hm12] at h4 hd
    unfold toDayNum
    dsimp only
    rw [hm12]
    omega

theorem valid_addMonths1 {c : CDate} (h : ValidDate c) :
    ValidDate (addMonths1 c) := by
  have p1 := one_le_daysInMonth c.year (c.month + 1)
  have p2 := one_le_daysInMonth (c.year + 1) 1
  obtain ⟨h1, h2, h3, h4⟩ := h
  unfold ValidDate addMonths1
  split_ifs with hm <;> dsimp only <;> omega

theorem toDayNum_lt_addMonths1 {c : CDate} (h : ValidDate c) :
    toDayNum c < toDayNum (addMonths1 c) := by
  obtain ⟨h1, h2, h3, h4⟩ := h
  unfold addMonths1
  split_ifs with hm
  · have hstep := daysBeforeMonth_succ c.year c.month h1 (by omega)
    have hpos0 := one_le_daysInMonth c.year c.month
    have hpos := one_le_daysInMonth c.year (c.month + 1)
    unfold toDayNum
    dsimp only
    omega
  · have hm12 : c.month = 12 := by omega
    have hb1 := daysBeforeMonth_one (c.year + 1)
    have hb12 := daysBeforeMonth_twelve c.year
    have hd12 := daysInMonth_twelve c.year
    have hjan : daysInMonth (c.year + 1) 1 = 31 := by norm_num [daysInMonth]
    have key := daysBeforeYear_succ_feb c.year
    rw [hm12] at h4
    unfold toDayNum
    dsimp only
    rw [hm12, hjan]
    omega

theorem valid_addDays1_iter (n : Nat) {c : CDate} (h : ValidDate c) :
    ValidDate (addDays1^[n] c) := by
  induction n generalizing c with
  | zero => simpa using h
  | succ n ih =>
    rw [Function.iterate_succ_apply]
    exact ih (valid_addDays1 h)

theorem toDayNum_addDays1_iter (n : Nat) {c : CDate} (h : ValidDate c) :
    toDayNum (addDays1^[n] c) = toDayNum c + n := by
  induction n generalizing c with
  | zero => simp
  | succ n ih =>
    rw [Function.iterate_succ_apply]
    rw [ih (valid_addDays1 h), toDayNum_addDays1 h]
    push_cast
    ring

theorem valid_colStep (mode : ViewMode) {c : CDate} (h : ValidDate c) :
    ValidDate (colStep mode c) := by
  cases mode with
  | day => exact valid_addDays1 h
  | week => exact valid_addDays1_iter 7 h
  | month => exact valid_addMonths1 h

theorem toDayNum_lt_colStep (mode : ViewMode) {c : CDate} (h : ValidDate c) :
    toDayNum c < toDayNum (colStep mode c) := by
  cases mode with
  | day =>
    have := toDayNum_addDays1 h
    simp only [colStep]
    omega
  | week =>
    have := toDayNum_addDays1_iter 7 h
    simp only [colStep]
    omega
  | month => exact toDayNum_lt_addMonths1 h

/-- Invariant of the `generateColumns` loop: with an iteration budget of
at least the number of days left in the range plus one, the produced
column list starts at the current date, consecutive entries are one
mode-step apart, every entry lies within the range, and the list is
closed under stepping within the range (the loop exits through its own
guard, never by exhausting the budget). -/
theorem generateColumnsGo_spec (e : CDate) (mode : ViewMode) :
    ∀ (fuel : Nat) (c : CDate), ValidDate c →
      (toDayNum e + 1 - toDayNum c).toNat ≤ fuel →
      (generateColumnsGo fuel c e mode).head? =
        (if toDayNum c ≤ toDayNum e then some c else none) ∧
      List.Chain' (fun a b => b = colStep mode a)
        (generateColumnsGo fuel c e mode) ∧
      (∀ x ∈ generateColumnsGo fuel c e mode, toDayNum x ≤ toDayNum e) ∧
      (∀ x ∈ generateColumnsGo fuel c e mode,
        toDayNum (colStep mode x) ≤ toDayNum e →
          colStep mode x ∈ generateColumnsGo fuel c e mode) := by
  intro fuel
  induction fuel with
  | zero =>
    intro c hc hfuel
    have hgt : toDayNum e < toDayNum c := by omega
    refine ⟨?_, ?_, ?_, ?_⟩
    · simp only [generateColumnsGo, List.head?_nil]
      rw [if_neg (by omega)]
    · simp [generateColumnsGo]
    · simp [generateColumnsGo]
    · simp [generateColumnsGo]
  | succ fuel ih =>
    intro c hc hfuel
    by_cases hle : toDayNum c ≤ toDayNum e
    · have hstep := toDayNum_lt_colStep mode hc
      have hvs := valid_colStep mode hc
      obtain ⟨ih1, ih2, ih3, ih4⟩ := ih (colStep mode c) hvs (by omega)
      have hunf : generateColumnsGo (fuel + 1) c e mode =
          c :: generateColumnsGo fuel (colStep mode c) e mode := by
        simp [generateColumnsGo, hle]
      refine ⟨?_, ?_, ?_, ?_⟩
      · simp [hunf, hle]
      · rw [hunf, List.chain'_cons']
        refine ⟨?_, ih2⟩
        intro b hb
        rw [ih1] at hb
        split at hb
        · simpa using hb.symm
        · simp at hb
      · intro x hx
        rw [hunf] at hx
        rcases List.mem_cons.mp hx with hx | hx
        · subst hx
          exact hle
        · exact ih3 x hx
      · intro x hx hxe
        rw [hunf] at hx ⊢
        rcases List.mem_cons.mp hx with hx | hx
        · subst hx
          refine List.mem_cons_of_mem _ ?_
          have h1 := ih1
          rw [if_pos hxe] at h1
          exact List.mem_of_mem_head? (by rw [h1]; rfl)
        · exact List.mem_cons_of_mem _ (ih4 x hx hxe)
    · refine ⟨?_, ?_, ?_, ?_⟩
      · simp [generateColumnsGo, hle]
      · simp [generateColumnsGo, hle]
      · simp [generateColumnsGo, hle]
      · simp [generateColumnsGo, hle]

theorem jsTruthy_some_of_ne {k : Int} (hk : k ≠ 0) :
    jsTruthy (some k) = true := by
  simp [jsTruthy, hk]

/-!
## Claims
-/

/-- C1: for every `doing` activity with a (positive, per the data-model
invariant) `duration_days` whose planned end `start_date + duration_days`
lies strictly before today at day granularity, `calculateActivityAlarm`
returns `state = critical`, `isOverdue = true`,
`daysOverdue = today − plannedEnd` in days, and `visualEndDate = today`. -/
theorem calculateActivityAlarm_overdue_critical (a : Activity) (now : Int)
    (k : Int) (hs : a.status = Status.doing) (hd : a.duration_days = some k)
    (hk : 1 ≤ k)
    (hlate : addDaysMs (startOfDayMs a.start_date) k < startOfDayMs now) :
    (calculateActivityAlarm a now).state = AlarmState.critical ∧
    (calculateActivityAlarm a now).isOverdue = true ∧
    (calculateActivityAlarm a now).daysOverdue =
      differenceInDays (startOfDayMs now)
        (addDaysMs (startOfDayMs a.start_date) k) ∧
    (calculateActivityAlarm a now).visualEndDate = startOfDayMs now := by
  have htruthy : jsTruthy (some k) = true := jsTruthy_some_of_ne (by omega)
  have hplt : addDaysMs (startOfDayMs a.start_date) k < now :=
    lt_of_lt_of_le hlate (startOfDayMs_le now)
  have hmod : addDaysMs (startOfDayMs a.start_date) k % msPerDay = 0 := by
    have h1 := startOfDayMs_mod a.start_date
    unfold addDaysMs msPerDay at *
    omega
  have hdvd : ∃ q : Int,
      startOfDayMs now - addDaysMs (startOfDayMs a.start_date) k =
        msPerDay * q := by
    have h1 := startOfDayMs_mod now
    unfold msPerDay at *
    exact ⟨(startOfDayMs now - addDaysMs (startOfDayMs a.start_date) k) / 86400000,
      by omega⟩
  obtain ⟨q, hq⟩ := hdvd
  simp only [calculateActivityAlarm, hs, hd, htruthy, eq_self_iff_true, if_true,
    Option.getD_some]
  rw [if_pos hplt]
  refine ⟨rfl, rfl, ?_, rfl⟩
  simp only [differenceInDays]
  rw [hq, Int.mul_fdiv_cancel_left _ (by norm_num [msPerDay]),
    Int.mul_tdiv_cancel_left _ (by norm_num [msPerDay])]

/-- C1 witness: the spec's worked example — `doing`, start at epoch day 0,
duration 5 days, evaluated on day 9: critical, overdue, 4 days over,
visual end today. -/
theorem calculateActivityAlarm_overdue_critical_witness :
    (⟨Status.doing, 0, some 5, some 0⟩ : Activity).status = Status.doing ∧
    (⟨Status.doing, 0, some 5, some 0⟩ : Activity).duration_days = some 5 ∧
    (1 : Int) ≤ 5 ∧
    addDaysMs (startOfDayMs 0) 5 < startOfDayMs 777600000 ∧
    ((calculateActivityAlarm ⟨Status.doing, 0, some 5, some 0⟩ 777600000).state =
        AlarmState.critical ∧
      (calculateActivityAlarm ⟨Status.doing, 0, some 5, some 0⟩ 777600000).isOverdue =
        true ∧
      (calculateActivityAlarm ⟨Status.doing, 0, some 5, some 0⟩ 777600000).daysOverdue =
        differenceInDays (startOfDayMs 777600000) (addDaysMs (startOfDayMs 0) 5) ∧
      (calculateActivityAlarm ⟨Status.doing, 0, some 5, some 0⟩ 777600000).visualEndDate =
        startOfDayMs 777600000) :=
  ⟨rfl, rfl, by decide, by decide,
    calculateActivityAlarm_overdue_critical _ 777600000 5 rfl rfl (by decide)
      (by decide)⟩

/-- C2 counterexample: a `todo` activity whose `start_date` is the very
day of the current instant (one millisecond past midnight of epoch
day 1) is classified `ghost`, while the claim demands `normal` for an
activity starting exactly today. -/
theorem todo_start_today_ghost_cex :
    startOfDayMs ((⟨Status.todo, 86400000, none, some 0⟩ : Activity).start_date) =
      startOfDayMs 86400001 ∧
    (calculateActivityAlarm ⟨Status.todo, 86400000, none, some 0⟩ 86400001).state =
      AlarmState.ghost := by
  decide

/-- C2 amended: for a `todo` activity the state is `ghost` exactly when
`startOfDay(start_date)` is before the current **instant** `now` — not
before the current day.  Hence `start_date` on an earlier day gives
`ghost` and on a later day gives `normal`, but an activity starting
exactly today is also `ghost` at any instant after midnight (the
effective day-granularity boundary is `≤`, not the claimed strict `<`). -/
theorem calculateActivityAlarm_ghost_iff (a : Activity) (now : Int)
    (hs : a.status = Status.todo) :
    (calculateActivityAlarm a now).state = AlarmState.ghost ↔
      startOfDayMs a.start_date < now := by
  simp only [calculateActivityAlarm, hs]
  split_ifs with h <;> simp [h]

/-- C2 amended witness: a `todo` activity started four days before the
evaluation instant is `ghost`. -/
theorem calculateActivityAlarm_ghost_iff_witness :
    (⟨Status.todo, 0, none, none⟩ : Activity).status = Status.todo ∧
    ((calculateActivityAlarm ⟨Status.todo, 0, none, none⟩ 345600000).state =
        AlarmState.ghost ↔
      startOfDayMs ((⟨Status.todo, 0, none, none⟩ : Activity).start_date) <
        345600000) :=
  ⟨rfl, calculateActivityAlarm_ghost_iff _ 345600000 rfl⟩

/-- C3 counterexample: an activity with `duration_days = 0` gets
`plannedEndDate = null`, not `start_date`: the JavaScript truthiness
test `activity.duration_days ? … : null` treats a present `0` exactly
like an absent duration. -/
theorem duration_zero_plannedEnd_none_cex :
    (calculateActivityAlarm ⟨Status.doing, 0, some 0, some 0⟩ 86400000).plannedEndDate ≠
      some ((⟨Status.doing, 0, some 0, some 0⟩ : Activity).start_date) ∧
    (calculateActivityAlarm ⟨Status.doing, 0, some 0, some 0⟩ 86400000).plannedEndDate =
      none := by
  decide

/-- C3 amended: `plannedEndDate` is non-null iff `duration_days` is
present **and non-zero**; an activity with `duration_days = 0` produces
exactly the same alarm result as the same activity with no duration at
all (open-ended growth of `visualEndDate` to today, never critical),
and its `plannedEndDate` is `null`. -/
theorem duration_zero_treated_as_absent (a : Activity) (now : Int)
    (hd : a.duration_days = some 0) :
    calculateActivityAlarm a now =
      calculateActivityAlarm { a with duration_days := none } now ∧
    (calculateActivityAlarm a now).plannedEndDate = none := by
  cases a with
  | mk s sd dd pg =>
    cases hd
    cases s <;>
      simp [calculateActivityAlarm, jsTruthy,
        apply_ite ActivityAlarmInfo.plannedEndDate]

/-- C3 amended witness: a `doing` activity with `duration_days = 0`
behaves as if the duration were absent. -/
theorem duration_zero_treated_as_absent_witness :
    (⟨Status.doing, 0, some 0, none⟩ : Activity).duration_days = some 0 ∧
    (calculateActivityAlarm ⟨Status.doing, 0, some 0, none⟩ 259200000 =
        calculateActivityAlarm
          { (⟨Status.doing, 0, some 0, none⟩ : Activity) with duration_days := none }
          259200000 ∧
      (calculateActivityAlarm ⟨Status.doing, 0, some 0, none⟩ 259200000).plannedEndDate =
        none) :=
  ⟨rfl, duration_zero_treated_as_absent _ 259200000 rfl⟩

/-- C8: a `doing` activity without `duration_days` is never `critical`,
whatever its `start_date` and whatever the current instant: with no
planned end there is nothing to exceed. -/
theorem doing_without_duration_never_critical (a : Activity) (now : Int)
    (hs : a.status = Status.doing) (hd : a.duration_days = none) :
    (calculateActivityAlarm a now).state ≠ AlarmState.critical := by
  simp [calculateActivityAlarm, hs, hd, jsTruthy]

/-- C8 witness: a `doing` activity started far in the past with no
duration, evaluated far in the future, is still not `critical`. -/
theorem doing_without_duration_never_critical_witness :
    (⟨Status.doing, -864000000000, none, some 50⟩ : Activity).status = Status.doing ∧
    (⟨Status.doing, -864000000000, none, some 50⟩ : Activity).duration_days = none ∧
    (calculateActivityAlarm ⟨Status.doing, -864000000000, none, some 50⟩
        999999999999).state ≠ AlarmState.critical :=
  ⟨rfl, rfl,
    doing_without_duration_never_critical _ 999999999999 rfl rfl⟩

/-- C9: in every `calculateActivityAlarm` result, `state = critical`
exactly when `isOverdue`; a non-overdue result has `daysOverdue = 0`;
and `daysOverdue` is never negative. -/
theorem calculateActivityAlarm_invariant (a : Activity) (now : Int) :
    ((calculateActivityAlarm a now).state = AlarmState.critical ↔
      (calculateActivityAlarm a now).isOverdue = true) ∧
    ((calculateActivityAlarm a now).isOverdue = false →
      (calculateActivityAlarm a now).daysOverdue = 0) ∧
    0 ≤ (calculateActivityAlarm a now).daysOverdue := by
  cases a with
  | mk s sd dd pg =>
    cases s
    case todo =>
      simp only [calculateActivityAlarm]
      split_ifs <;> simp
    case finished => simp [calculateActivityAlarm]
    case doing =>
      cases dd with
      | none => simp [calculateActivityAlarm, jsTruthy]
      | some k =>
        by_cases hk : k = 0
        · subst hk
          simp [calculateActivityAlarm, jsTruthy]
        · have htr : jsTruthy (some k) = true := jsTruthy_some_of_ne hk
          by_cases hlt : addDaysMs (startOfDayMs sd) k < now
          · have hmod : addDaysMs (startOfDayMs sd) k % msPerDay = 0 := by
              have h1 := startOfDayMs_mod sd
              unfold addDaysMs msPerDay at *
              omega
            have hle : addDaysMs (startOfDayMs sd) k ≤ startOfDayMs now :=
              le_startOfDayMs_of_lt hmod hlt
            have hnn :
                0 ≤ (startOfDayMs now - addDaysMs (startOfDayMs sd) k).fdiv msPerDay :=
              Int.fdiv_nonneg (by omega) (by norm_num [msPerDay])
            simp only [calculateActivityAlarm, htr, eq_self_iff_true, if_true,
              Option.getD_some]
            rw [if_pos hlt]
            simpa using hnn
          · simp only [calculateActivityAlarm, htr, eq_self_iff_true, if_true,
              Option.getD_some]
            rw [if_neg hlt]
            simp

/-- C9 witness: the invariant instantiated at a concrete overdue `doing`
activity. -/
theorem calculateActivityAlarm_invariant_witness :
    ((calculateActivityAlarm ⟨Status.doing, 0, some 1, none⟩ 259200000).state =
        AlarmState.critical ↔
      (calculateActivityAlarm ⟨Status.doing, 0, some 1, none⟩ 259200000).isOverdue =
        true) ∧
    ((calculateActivityAlarm ⟨Status.doing, 0, some 1, none⟩ 259200000).isOverdue =
        false →
      (calculateActivityAlarm ⟨Status.doing, 0, some 1, none⟩ 259200000).daysOverdue =
        0) ∧
    0 ≤ (calculateActivityAlarm ⟨Status.doing, 0, some 1, none⟩ 259200000).daysOverdue :=
  calculateActivityAlarm_invariant ⟨Status.doing, 0, some 1, none⟩ 259200000

/-- C4 counterexample: for a `doing` activity starting at 18:00 of epoch
day 0 with a 1-day duration, evaluated at noon of day 1, the card
component classifies `normal` while the shared `calculateActivityAlarm`
says `critical` — the two alarm computations disagree. -/
theorem cardAlarm_shared_mismatch_cex :
    cardAlarmState ⟨Status.doing, 64800000, some 1, some 0⟩ 129600000 =
      AlarmState.normal ∧
    (calculateActivityAlarm ⟨Status.doing, 64800000, some 1, some 0⟩
        129600000).state = AlarmState.critical ∧
    cardAlarmState ⟨Status.doing, 64800000, some 1, some 0⟩ 129600000 ≠
      (calculateActivityAlarm ⟨Status.doing, 64800000, some 1, some 0⟩
        129600000).state := by
  decide

/-- C4 amended: the card component's inline classification agrees with
the shared `calculateActivityAlarm` for every activity whose
`start_date` is day-aligned (a whole-day timestamp, as produced by the
date-only entry form) and for every current instant; it can disagree
when `start_date` carries a time-of-day component, because only the
shared utility truncates to start-of-day. -/
theorem cardAlarm_eq_shared_of_day_aligned (a : Activity) (now : Int)
    (h : a.start_date % msPerDay = 0) :
    cardAlarmState a now = (calculateActivityAlarm a now).state := by
  have hsod : startOfDayMs a.start_date = a.start_date := by
    unfold startOfDayMs
    omega
  cases a with
  | mk s sd dd pg =>
    simp only at hsod
    cases s
    case finished => simp [cardAlarmState, calculateActivityAlarm]
    case todo =>
      simp only [cardAlarmState, calculateActivityAlarm, hsod,
        apply_ite ActivityAlarmInfo.state]
    case doing =>
      cases dd with
      | none => simp [cardAlarmState, calculateActivityAlarm, jsTruthy]
      | some k =>
        by_cases hk : k = 0
        · subst hk
          simp [cardAlarmState, calculateActivityAlarm, jsTruthy]
        · have htr : jsTruthy (some k) = true := jsTruthy_some_of_ne hk
          simp only [cardAlarmState, calculateActivityAlarm, htr,
            eq_self_iff_true, if_true, Option.getD_some, and_true, hsod,
            apply_ite ActivityAlarmInfo.state]

/-- C4 amended witness: a day-aligned overdue `doing` activity gets the
same classification from the card component and the shared utility. -/
theorem cardAlarm_eq_shared_of_day_aligned_witness :
    (⟨Status.doing, 86400000, some 2, none⟩ : Activity).start_date % msPerDay = 0 ∧
    cardAlarmState ⟨Status.doing, 86400000, some 2, none⟩ 345600005 =
      (calculateActivityAlarm ⟨Status.doing, 86400000, some 2, none⟩
        345600005).state :=
  ⟨by decide, cardAlarm_eq_shared_of_day_aligned _ 345600005 (by decide)⟩

/-- C7: with no `doing` activities, the timeline layout in day mode is
the fixed default range `[today − 14 days, today + 14 days]` (the
embedding is a total function, so the empty input yields this
well-defined result rather than an error). -/
theorem computeTimelineLayout_empty_default (activities : List Activity)
    (now : Int)
    (h : activities.filter (fun a => a.status == Status.doing) = []) :
    (computeTimelineLayout activities ViewMode.day now).startDate =
      addDaysMs (startOfDayMs now) (-14) ∧
    (computeTimelineLayout activities ViewMode.day now).endDate =
      addDaysMs (startOfDayMs now) 14 := by
  simp only [computeTimelineLayout, h]
  simp

/-- C7 witness: the default range evaluated with no activities at all. -/
theorem computeTimelineLayout_empty_default_witness :
    ([] : List Activity).filter (fun a => a.status == Status.doing) = [] ∧
    ((computeTimelineLayout [] ViewMode.day 123456).startDate =
        addDaysMs (startOfDayMs 123456) (-14) ∧
      (computeTimelineLayout [] ViewMode.day 123456).endDate =
        addDaysMs (startOfDayMs 123456) 14) :=
  ⟨rfl, computeTimelineLayout_empty_default [] 123456 rfl⟩

/-- C5 counterexample: with no `doing` activities in week mode the
layout hardcodes `todayPosition = 14 × COLUMN_WIDTH[week] = 1400`,
while `position(today)` relative to the returned range start is
`(14 / 7) × 100 = 200` — the today marker does not equal
`position(today)` for the empty set outside day mode. -/
theorem todayPosition_empty_week_cex :
    (computeTimelineLayout [] ViewMode.week 0).todayPosition ≠
      calculatePosition (startOfDayMs 0)
        (computeTimelineLayout [] ViewMode.week 0).startDate ViewMode.week := by
  have h1 : (computeTimelineLayout [] ViewMode.week 0).todayPosition = 1400 := by
    norm_num [computeTimelineLayout, COLUMN_WIDTH]
  have h2 : (computeTimelineLayout [] ViewMode.week 0).startDate = -1209600000 := by
    norm_num [computeTimelineLayout, startOfDayMs, msPerDay, addDaysMs]
  have h3 : differenceInDays (startOfDayMs 0) (-1209600000) = 14 := by decide
  rw [h1, h2]
  norm_num [calculatePosition, h3, COLUMN_WIDTH]

/-- C5 amended: `todayPosition = position(today)` holds for every
non-empty set of `doing` activities in every view mode, and for the
empty set in day mode; for the empty set in week/month mode the layout
instead hardcodes `14 × COLUMN_WIDTH[mode]`, which differs from
`position(today)` (see the counterexample). -/
theorem todayPosition_eq_position (activities : List Activity)
    (mode : ViewMode) (now : Int)
    (h : activities.filter (fun a => a.status == Status.doing) ≠ [] ∨
      mode = ViewMode.day) :
    (computeTimelineLayout activities mode now).todayPosition =
      calculatePosition (startOfDayMs now)
        (computeTimelineLayout activities mode now).startDate mode := by
  by_cases he : (activities.filter (fun a => a.status == Status.doing)).isEmpty = true
  · have hmode : mode = ViewMode.day := by
      rcases h with h | h
      · exact absurd (List.isEmpty_iff.mp he) h
      · exact h
    subst hmode
    have hd : differenceInDays (startOfDayMs now)
        (addDaysMs (startOfDayMs now) (-14)) = 14 := by
      unfold differenceInDays addDaysMs
      rw [show startOfDayMs now - (startOfDayMs now + -14 * msPerDay) =
        14 * msPerDay by ring]
      exact Int.mul_tdiv_cancel _ (by norm_num [msPerDay])
    simp only [computeTimelineLayout, he, if_true]
    simp only [calculatePosition, hd, COLUMN_WIDTH]
    norm_num
  · simp only [computeTimelineLayout]
    rw [if_neg he]

/-- C5 amended witness: the empty set in day mode places the today
marker at `position(today)`. -/
theorem todayPosition_eq_position_witness :
    (([] : List Activity).filter (fun a => a.status == Status.doing) ≠ [] ∨
      ViewMode.day = ViewMode.day) ∧
    (computeTimelineLayout [] ViewMode.day 0).todayPosition =
      calculatePosition (startOfDayMs 0)
        (computeTimelineLayout [] ViewMode.day 0).startDate ViewMode.day :=
  ⟨Or.inr rfl, todayPosition_eq_position [] ViewMode.day 0 (Or.inr rfl)⟩

/-- C6 counterexample: for a zero-day span in day mode the code clamps
the day delta to 1 and returns one full column width (40 px), not the
80%-of-a-column floor (32 px) demanded by the spec's formula. -/
theorem calculateWidth_zero_span_day_cex :
    calculateWidth 0 0 ViewMode.day ≠ specWidth ViewMode.day 0 0 ∧
    calculateWidth 0 0 ViewMode.day = 40 ∧
    specWidth ViewMode.day 0 0 = 32 := by
  have hd : differenceInDays 0 0 = 0 := by decide
  refine ⟨?_, ?_, ?_⟩ <;>
    norm_num [calculateWidth, specWidth, hd, COLUMN_WIDTH, max_def]

/-- C6 amended: `calculateWidth` equals the spec's
`max(minimumBarWidth[mode], days × scale)` formula with the day delta
first clamped below at one day (`max 1 (daysBetween start end)`); in
particular a zero-day span in day mode yields one full column width
(40 px), not the 80% floor, which the clamp makes unreachable. -/
theorem calculateWidth_eq_spec_clamped (startDate endDate : Int)
    (mode : ViewMode) :
    calculateWidth startDate endDate mode =
      specWidthClamped mode startDate endDate ∧
    calculateWidth startDate startDate ViewMode.day =
      COLUMN_WIDTH ViewMode.day := by
  constructor
  · cases mode <;> rfl
  · have hd : differenceInDays startDate startDate = 0 := by
      unfold differenceInDays
      simp
    norm_num [calculateWidth, hd, COLUMN_WIDTH, max_def]

/-- C10: for every pair of calendar dates with `start ≤ end` (comparison
of day numbers, as JavaScript `Date` comparison does) and every view
mode, the column generation loop produces a non-empty finite list whose
first column is exactly the range start, whose consecutive columns are
exactly one mode step apart (1 day / 1 week / 1 calendar month), whose
every column is `≤` the range end, and which is closed under stepping
within the range — i.e. the loop runs to its own guard's completion,
witnessing termination with the stated budget. -/
theorem generateColumns_spec (s e : CDate) (mode : ViewMode)
    (hs : ValidDate s) (hse : toDayNum s ≤ toDayNum e) :
    generateColumns s e mode ≠ [] ∧
    (generateColumns s e mode).head? = some s ∧
    List.Chain' (fun a b => b = colStep mode a) (generateColumns s e mode) ∧
    (∀ c ∈ generateColumns s e mode, toDayNum c ≤ toDayNum e) ∧
    (∀ c ∈ generateColumns s e mode,
      toDayNum (colStep mode c) ≤ toDayNum e →
        colStep mode c ∈ generateColumns s e mode) := by
  obtain ⟨h1, h2, h3, h4⟩ :=
    generateColumnsGo_spec e mode (toDayNum e + 1 - toDayNum s).toNat s hs
      (le_refl _)
  rw [if_pos hse] at h1
  unfold generateColumns
  refine ⟨?_, h1, h2, h3, h4⟩
  intro hnil
  rw [hnil] at h1
  simp at h1

/-- C10 witness: month-mode columns from 2024-01-31 (leap year, month
ends exercise the day-of-month clamp) to 2024-04-15. -/
theorem generateColumns_spec_witness :
    ValidDate ⟨2024, 1, 31⟩ ∧
    toDayNum ⟨2024, 1, 31⟩ ≤ toDayNum ⟨2024, 4, 15⟩ ∧
    (generateColumns ⟨2024, 1, 31⟩ ⟨2024, 4, 15⟩ ViewMode.month ≠ [] ∧
      (generateColumns ⟨2024, 1, 31⟩ ⟨2024, 4, 15⟩ ViewMode.month).head? =
        some ⟨2024, 1, 31⟩ ∧
      List.Chain' (fun a b => b = colStep ViewMode.month a)
        (generateColumns ⟨2024, 1, 31⟩ ⟨2024, 4, 15⟩ ViewMode.month) ∧
      (∀ c ∈ generateColumns ⟨2024, 1, 31⟩ ⟨2024, 4, 15⟩ ViewMode.month,
        toDayNum c ≤ toDayNum ⟨2024, 4, 15⟩) ∧
      (∀ c ∈ generateColumns ⟨2024, 1, 31⟩ ⟨2024, 4, 15⟩ ViewMode.month,
        toDayNum (colStep ViewMode.month c) ≤ toDayNum ⟨2024, 4, 15⟩ →
          colStep ViewMode.month c ∈
            generateColumns ⟨2024, 1, 31⟩ ⟨2024, 4, 15⟩ ViewMode.month)) :=
  ⟨by decide, by decide,
    generateColumns_spec ⟨2024, 1, 31⟩ ⟨2024, 4, 15⟩ ViewMode.month (by decide)
      (by decide)⟩
